import Mathlib

/-!
Verification of the Spotify chart-history collector.

Shallow embedding of `spotify_chart.py` (class `SpotifyChartHistory`) and
proofs of the specified properties.

Modelling conventions:

* Outbound Spotify calls are abstracted by an environment `Env` recording, for
  each wrapped call, the final outcome of `make_api_request` on it
  (`ok` value / exception propagated / `None` returned).  The retry loop
  itself (`make_api_request`) is embedded separately and exactly.
* Wall-clock sleeping is modelled by recording the slept durations
  (`make_api_request` returns the list of computed waits next to its result);
  the fixed inter-batch / inter-genre-call sleeps carry no information and are
  not recorded.
* Python `datetime` values are modelled as seconds since an epoch (a `Nat`);
  every
  `timedelta` the program builds is a whole number of seconds.  `strftime`
  (Python standard library) is replaced by injective rendering stand-ins.
* Exceptions inside `get_chart_by_date`'s `try` block are modelled with
  `Except Unit`; the surrounding handler turns any error into `[]`.
* Numeric audio-feature values and the jitter of `random.uniform(0, 2)` are
  modelled as rationals.
-/

/-- Outcome of one raw invocation of the wrapped operation `func`, as
distinguished by `make_api_request`'s `except` clauses:
a returned value, a `SpotifyException` with HTTP status 429 (carrying the
optional `Retry-After` header), a `SpotifyException` with another status, or
any other exception. -/
inductive ApiOutcome (α : Type) where
  | success : α → ApiOutcome α
  | http429 : Option ℤ → ApiOutcome α
  | spotifyErr : ApiOutcome α
  | genericErr : ApiOutcome α
deriving DecidableEq

/-- Result of a whole `make_api_request` call: a value returned from `func`,
an exception propagated to the caller (`raise e`), or the Python function
falling off the end of its `for` loop and returning `None`. -/
inductive ApiResult (α : Type) where
  | ok : α → ApiResult α
  | raised : ApiResult α
  | returnedNone : ApiResult α
deriving DecidableEq

/-- Local constant `max_attempts = 5` of `make_api_request`. -/
def max_attempts : ℕ := 5

/-- Local constant `base_delay = 2` of `make_api_request`, in seconds. -/
def base_delay : ℚ := 2

/-- The `for attempt in range(max_attempts)` loop of `make_api_request`.
`op a` is the outcome of calling `func(*args)` on attempt `a` (0-based) and
`jitter a` the value drawn by `random.uniform(0, 2)` on attempt `a`.
`remaining` counts the loop iterations still to run (callers pass
`max_attempts` with `attempt = 0`).  Returns the result together with the
list of waits slept between attempts. -/
def apiLoop (op : ℕ → ApiOutcome α) (jitter : ℕ → ℚ) :
    ℕ → ℕ → ApiResult α × List ℚ
  | _, 0 => (.returnedNone, [])
  | attempt, r + 1 =>
    match op attempt with
    | .success v => (.ok v, [])
    | .http429 hdr =>
      -- retry_after = int(e.headers.get('Retry-After', 5))
      let retry_after : ℤ := hdr.getD 5
      -- wait_time = base_delay * (2 ** attempt) + random.uniform(0, 2)
      -- wait_time = min(wait_time, max(retry_after, 5))
      let wait_time : ℚ :=
        min (base_delay * 2 ^ attempt + jitter attempt) (max (retry_after : ℚ) 5)
      let rest := apiLoop op jitter (attempt + 1) r
      (rest.1, wait_time :: rest.2)
    | .spotifyErr => (.raised, [])
    | .genericErr =>
      if attempt < max_attempts - 1 then
        let rest := apiLoop op jitter (attempt + 1) r
        (rest.1, (base_delay * 2 ^ attempt) :: rest.2)
      else (.raised, [])

/-- Model of `make_api_request(self, func, *args, **kwargs)` with the wrapped
call and its randomness abstracted: the final result and the slept waits. -/
def make_api_request (op : ℕ → ApiOutcome α) (jitter : ℕ → ℚ) :
    ApiResult α × List ℚ :=
  apiLoop op jitter 0 max_attempts

/-- Constructor state of `SpotifyChartHistory.__init__` (the `sp` client is
part of the abstracted environment). -/
structure SpotifyChartHistory where
  client_id : String
  client_secret : String
  max_retries : ℕ := 5
  backoff_factor : ℚ := 1
  delay_seconds : ℚ := 2

/-- Method view of `make_api_request` on `SpotifyChartHistory`: its body uses
only the local constants `max_attempts` and `base_delay`, never `self`. -/
def SpotifyChartHistory.make_api_request (_self : SpotifyChartHistory)
    (op : ℕ → ApiOutcome α) (jitter : ℕ → ℚ) : ApiResult α × List ℚ :=
  apiLoop op jitter 0 max_attempts

/-! Data model of the upstream responses: `sp.playlist_tracks`,
`sp.audio_features`, `sp.artist`. -/

/-- An entry of a track's `artists` array: `{'id': ..., 'name': ...}`. -/
structure ArtistRef where
  id : String
  name : String
deriving DecidableEq

/-- Response of `sp.artist(artist_id)`: only the `genres` field is read. -/
structure ArtistObj where
  genres : List String
deriving DecidableEq

/-- One `item['track']` of the playlist response (the fields the program
reads). -/
structure Track where
  id : String
  name : String
  artists : List ArtistRef
  album_name : String
  album_release_date : String
  /-- URLs of `track['album']['images']`. -/
  album_images : List String
  popularity : ℤ
deriving DecidableEq

/-- Response of `sp.playlist_tracks(...)`: the `items` array, one track per
item. -/
structure Playlist where
  items : List Track
deriving DecidableEq

/-- One non-null entry of the `sp.audio_features(batch)` response. -/
structure AudioFeatures where
  danceability : ℚ
  energy : ℚ
  key : ℚ
  tempo : ℚ
  acousticness : ℚ
  instrumentalness : ℚ
  liveness : ℚ
  valence : ℚ
deriving DecidableEq

/-- One assembled chart row (the dict appended to `chart_data`; field names
translate the Korean keys 날짜, 시간, 순위, 제목, 아티스트, 앨범, 발매일,
장르, 인기도, 댄스성, 에너지, 키, 템포, 음향도, 악기비율, 라이브성, 긍정도,
앨범이미지 in order). -/
structure ChartRecord where
  date : String
  time : String
  rank : ℕ
  title : String
  artist : String
  album : String
  release_date : String
  genre : String
  popularity : ℤ
  danceability : ℚ
  energy : ℚ
  key : ℚ
  tempo : ℚ
  acousticness : ℚ
  instrumentalness : ℚ
  liveness : ℚ
  valence : ℚ
  album_image : Option String
deriving DecidableEq

/-- The upstream environment: for each call the program wraps in
`make_api_request`, the final outcome of that wrapped call (value returned /
exception propagated / `None` returned after exhausting rate-limited
attempts).  `artist` may also return a falsy `None` object (`.ok none`). -/
structure Env where
  playlist : ApiResult Playlist
  audio_features : List String → ApiResult (List (Option AudioFeatures))
  artist : String → ApiResult (Option ArtistObj)


/-- Stand-in for `target_date.strftime('%Y%m%d')` (standard library):
an injective rendering of the timestamp. -/
def strftime_Ymd (t : ℕ) : String := "date:" ++ toString t

/-- Stand-in for `target_date.strftime('%H:%M')` (standard library):
an injective rendering of the timestamp. -/
def strftime_HM (t : ℕ) : String := "time:" ++ toString t

/-- Model of `get_track_genres(self, artist_id)`: the artist lookup wrapped in a
catch-all `try`/`except` returning `[]`, with a falsy (`None`) artist also
giving `[]`. -/
def get_track_genres (env : Env) (artist_id : String) : List String :=
  match env.artist artist_id with
  | .ok (some a) => a.genres
  | .ok none => []
  | .returnedNone => []
  | .raised => []

/-- The dict literal appended to `chart_data` for one track. -/
def mkRecord (formatted_date time_str : String) (idx : ℕ) (track : Track)
    (genres : List String) (features : AudioFeatures) : ChartRecord where
  date := formatted_date
  time := time_str
  rank := idx
  title := track.name
  artist := String.intercalate ", " (track.artists.map (·.name))
  album := track.album_name
  release_date := track.album_release_date
  genre := if genres = [] then "Unknown" else String.intercalate ", " genres
  popularity := track.popularity
  danceability := features.danceability
  energy := features.energy
  key := features.key
  tempo := features.tempo
  acousticness := features.acousticness
  instrumentalness := features.instrumentalness
  liveness := features.liveness
  valence := features.valence
  album_image := track.album_images.head?

/-- The inner `for j, features in enumerate(audio_features_batch)` loop.
`tracks_info` is the full enumerated track list, `k = i + j` the absolute
index of the current entry.  A null `features` entry is skipped
(`if not features: continue`); `tracks_info[i+j]` out of range or an empty
`track['artists']` raises (`.error`), aborting the snapshot. -/
def processBatch (env : Env) (formatted_date time_str : String)
    (tracks_info : List (ℕ × Track)) :
    List (Option AudioFeatures) → ℕ → Except Unit (List ChartRecord)
  | [], _ => .ok []
  | none :: rest, k => processBatch env formatted_date time_str tracks_info rest (k + 1)
  | some features :: rest, k =>
    match tracks_info.get? k with
    | none => .error ()
    | some (idx, track) =>
      match track.artists with
      | [] => .error ()
      | a0 :: _ =>
        let genres := get_track_genres env a0.id
        match processBatch env formatted_date time_str tracks_info rest (k + 1) with
        | .error e => .error e
        | .ok recs => .ok (mkRecord formatted_date time_str idx track genres features :: recs)

/-- The slices `(i, track_ids[i:i+100])` produced by
`for i in range(0, len(track_ids), 100)`.  The fuel argument (instantiated
with `ids.length` in `batchSlices`) bounds the number of slices. -/
def batchSlicesAux : ℕ → List String → ℕ → List (ℕ × List String)
  | 0, _, _ => []
  | _ + 1, [], _ => []
  | fuel + 1, ids@(_ :: _), i =>
    (i, ids.take 100) :: batchSlicesAux fuel (ids.drop 100) (i + 100)

/-- All batch slices of the track-id list. -/
def batchSlices (ids : List String) : List (ℕ × List String) :=
  batchSlicesAux ids.length ids 0

/-- The outer batch loop: one `sp.audio_features` call per slice (its
failure, or a `None` return — over which `enumerate` raises — aborts the
snapshot), then the inner per-track loop. -/
def processAllBatches (env : Env) (formatted_date time_str : String)
    (tracks_info : List (ℕ × Track)) :
    List (ℕ × List String) → Except Unit (List ChartRecord)
  | [] => .ok []
  | (i, batch_ids) :: rest =>
    match env.audio_features batch_ids with
    | .raised => .error ()
    | .returnedNone => .error ()
    | .ok audio_features_batch =>
      match processBatch env formatted_date time_str tracks_info audio_features_batch i with
      | .error _ => .error ()
      | .ok recs =>
        match processAllBatches env formatted_date time_str tracks_info rest with
        | .error _ => .error ()
        | .ok more => .ok (recs ++ more)

/-- Model of `get_chart_by_date(self, target_date)`: list the playlist, enumerate its
tracks 1-based, process the audio-feature batches; any exception in the
`try` block is caught and the snapshot degrades to `[]`. -/
def get_chart_by_date (env : Env) (target_date : ℕ) : List ChartRecord :=
  let formatted_date := strftime_Ymd target_date
  let time_str := strftime_HM target_date
  match env.playlist with
  | .raised => []
  | .returnedNone => []
  | .ok playlist =>
    let tracks_info := List.enumFrom 1 playlist.items
    let track_ids := playlist.items.map (·.id)
    match processAllBatches env formatted_date time_str tracks_info
        (batchSlices track_ids) with
    | .error _ => []
    | .ok chart_data => chart_data

/-- Concrete sample track (for witnesses and counterexamples). -/
def sampleTrack (n : ℕ) : Track where
  id := "id" ++ toString n
  name := "name" ++ toString n
  artists := [⟨"a" ++ toString n, "artist" ++ toString n⟩]
  album_name := "alb"
  album_release_date := "2024"
  album_images := []
  popularity := 1

/-- Concrete sample audio features. -/
def sampleFeat : AudioFeatures := ⟨1, 1, 1, 1, 1, 1, 1, 1⟩

/-- Sample upstream: 3 tracks, the second one's audio-feature entry null,
genre lookups failing. -/
def gapEnv : Env where
  playlist := .ok ⟨[sampleTrack 1, sampleTrack 2, sampleTrack 3]⟩
  audio_features := fun _ => .ok [some sampleFeat, none, some sampleFeat]
  artist := fun _ => .raised

/-- Sample upstream on which every call fails. -/
def failEnv : Env where
  playlist := .raised
  audio_features := fun _ => .raised
  artist := fun _ => .raised

/-- Sample upstream whose playlist listing succeeds but whose audio-feature
batch call fails. -/
def batchFailEnv : Env where
  playlist := .ok ⟨[sampleTrack 1]⟩
  audio_features := fun _ => .raised
  artist := fun _ => .raised

/-- Sample upstream on which everything succeeds (two tracks, genre found). -/
def genreEnv : Env where
  playlist := .ok ⟨[sampleTrack 1, sampleTrack 2]⟩
  audio_features := fun _ => .ok [some sampleFeat, some sampleFeat]
  artist := fun _ => .ok (some ⟨["pop"]⟩)

/-- Like `genreEnv`, except that the genre lookup for the first track's primary
artist (`"a1"`) fails. -/
def genreEnvFail : Env :=
  { genreEnv with
    artist := fun x => if x = "a1" then .raised else genreEnv.artist x }

/-- One record degrades to another when they are equal or differ only by the
genre field collapsing to the sentinel. -/
def DegradesTo (r r' : ChartRecord) : Prop :=
  r' = r ∨ r' = { r with genre := "Unknown" }

/-! Periodic Collector: `get_charts_by_period`. -/

/-- Observable trace of one iteration of the collector's `while` loop:
the tick timestamp, the records this tick fetched, the accumulated buffer
after `all_charts.extend(daily_chart)`, and the data passed to
`save_intermediate_data` when the checkpoint fired. -/
structure TickEvent where
  timestamp : ℕ
  fetched : List ChartRecord
  bufferAfter : List ChartRecord
  checkpoint : Option (List ChartRecord)
deriving DecidableEq

/-- The `interval_timedelta` dict of `get_charts_by_period` together with the
`.get(interval, timedelta(hours=1))` default, in seconds. -/
def interval_timedelta (interval : String) : ℕ :=
  if interval = "hour" then 3600
  else if interval = "day" then 86400
  else if interval = "week" then 604800
  else if interval = "month" then 2592000
  else if interval = "year" then 31536000
  else 3600

/-- Positivity of every interval delta (needed for the loop's termination
argument). -/
def interval_timedelta_pos (interval : String) :
    0 < interval_timedelta interval := by
  unfold interval_timedelta
  repeat' split
  all_goals norm_num

/-- The collector's `while current_date <= end_date` loop: fetch, extend the
buffer, checkpoint when the cumulative length is an exact multiple of 100,
advance by `delta`.  Returns the final buffer and the per-tick trace. -/
def collectLoop (fetch : ℕ → List ChartRecord) (delta end_date : ℕ)
    (hd : 0 < delta) (current_date : ℕ) (all_charts : List ChartRecord) :
    List ChartRecord × List TickEvent :=
  if _h : current_date ≤ end_date then
    let daily_chart := fetch current_date
    let acc2 := all_charts ++ daily_chart
    let cp : Option (List ChartRecord) :=
      if acc2.length % 100 = 0 then some acc2 else none
    let rest := collectLoop fetch delta end_date hd (current_date + delta) acc2
    (rest.1, ⟨current_date, daily_chart, acc2, cp⟩ :: rest.2)
  else (all_charts, [])
termination_by end_date + 1 - current_date
decreasing_by
  simp_wf
  omega

/-- Model of `get_charts_by_period(self, start_date, end_date, interval)`.  `envAt t`
is the upstream environment seen by the snapshot fetched at tick `t`. -/
def get_charts_by_period (envAt : ℕ → Env)
    (start_date end_date : ℕ) (interval : String) :
    List ChartRecord × List TickEvent :=
  collectLoop (fun t => get_chart_by_date (envAt t) t)
    (interval_timedelta interval) end_date (interval_timedelta_pos interval)
    start_date []

/-- Proof-side companion of `collectLoop`: just the sequence of tick
timestamps the `while` loop visits. -/
def tickSchedule (delta end_date : ℕ) (hd : 0 < delta)
    (current : ℕ) : List ℕ :=
  if _h : current ≤ end_date then
    current :: tickSchedule delta end_date hd (current + delta)
  else []
termination_by end_date + 1 - current
decreasing_by
  simp_wf
  omega

/-- Modelled from the spec (for comparison only, not from the source): the
spec's stated wait formula
`wait = min(max(base_delay * 2^attempt + uniform_jitter, server_hint_or_default), cap)`. -/
def specWait (attempt : ℕ) (jitter hint cap : ℚ) : ℚ :=
  min (max (base_delay * 2 ^ attempt + jitter) hint) cap

/-! Theorems. -/

/-- C1, counterexample.  The claim's wait formula and its lower bound by
the server hint both fail on the code: with `Retry-After: 5`, zero-based
attempt `0` and jitter `1/2`, `make_api_request` computes the wait
`min(2·2^0 + 1/2, max(5, 5)) = 5/2`, which is *below* the hint `5`, while
the spec formula (with cap 10) would give `5`. -/
theorem c1_wait_below_hint_counterexample :
    (make_api_request
        (fun a => if a = 0 then ApiOutcome.http429 (some 5)
          else ApiOutcome.success ()) (fun _ => 1/2)).2 = [5/2] ∧
    ¬ (5 : ℚ) ≤ 5/2 ∧ specWait 0 (1/2) 5 10 = 5 := by
  refine ⟨?_, by norm_num, ?_⟩
  · norm_num [make_api_request, apiLoop, min_def, max_def, base_delay, max_attempts]
  · norm_num [specWait, min_def, max_def, base_delay]

/-- C1 (amended).  On a 429 the code computes
`wait = min(base_delay·2^attempt + jitter, max(server_hint, 5))` — the hint
caps the wait from above instead of bounding it from below.  For the spec's
scenario (three consecutive 429s with hint 5, then success) every computed
wait lies in `[base_delay, 10]` and the fourth attempt succeeds with no
further wait. -/
theorem c1_rate_limit_waits_bounded (α : Type) (v : α) (jitter : ℕ → ℚ)
    (hj : ∀ a, 0 ≤ jitter a ∧ jitter a ≤ 2) :
    (make_api_request
        (fun a => if a < 3 then ApiOutcome.http429 (some 5)
          else ApiOutcome.success v) jitter).1 = ApiResult.ok v ∧
    (make_api_request
        (fun a => if a < 3 then ApiOutcome.http429 (some 5)
          else ApiOutcome.success v) jitter).2 =
      [min (base_delay * 2 ^ 0 + jitter 0) 5,
       min (base_delay * 2 ^ 1 + jitter 1) 5,
       min (base_delay * 2 ^ 2 + jitter 2) 5] ∧
    ∀ w ∈ (make_api_request
        (fun a => if a < 3 then ApiOutcome.http429 (some 5)
          else ApiOutcome.success v) jitter).2,
      base_delay ≤ w ∧ w ≤ 10 := by
  have hwaits : (make_api_request
      (fun a => if a < 3 then ApiOutcome.http429 (some 5)
        else ApiOutcome.success v) jitter) =
      (ApiResult.ok v,
        [min (base_delay * 2 ^ 0 + jitter 0) 5,
         min (base_delay * 2 ^ 1 + jitter 1) 5,
         min (base_delay * 2 ^ 2 + jitter 2) 5]) := by
    norm_num [make_api_request, apiLoop, max_attempts, max_def]
  refine ⟨by rw [hwaits], by rw [hwaits], ?_⟩
  rw [hwaits]
  intro w hw
  have hb : ∀ a : ℕ, base_delay ≤ min (base_delay * 2 ^ a + jitter a) 5 ∧
      min (base_delay * 2 ^ a + jitter a) 5 ≤ 10 := by
    intro a
    constructor
    · refine le_min ?_ (by norm_num [base_delay])
      have h1 : (1 : ℚ) ≤ 2 ^ a := one_le_pow₀ (by norm_num)
      have h2 := (hj a).1
      simp only [base_delay]
      nlinarith [h1, h2]
    · calc min (base_delay * 2 ^ a + jitter a) 5 ≤ 5 := min_le_right _ _
        _ ≤ 10 := by norm_num
  simp only [List.mem_cons, List.not_mem_nil, or_false] at hw
  rcases hw with h | h | h <;> subst h
  · exact hb 0
  · exact hb 1
  · exact hb 2

/-- C1, witness. -/
theorem c1_rate_limit_waits_bounded_witness :
    (make_api_request
        (fun a => if a < 3 then ApiOutcome.http429 (some 5)
          else ApiOutcome.success ()) (fun _ => 1)).1 = ApiResult.ok () ∧
    (make_api_request
        (fun a => if a < 3 then ApiOutcome.http429 (some 5)
          else ApiOutcome.success ()) (fun _ => 1)).2 =
      [min (base_delay * 2 ^ 0 + 1) 5, min (base_delay * 2 ^ 1 + 1) 5,
       min (base_delay * 2 ^ 2 + 1) 5] :=
  ⟨(c1_rate_limit_waits_bounded Unit () (fun _ => 1)
      (fun _ => by norm_num)).1,
   (c1_rate_limit_waits_bounded Unit () (fun _ => 1)
      (fun _ => by norm_num)).2.1⟩

/-- C3, counterexample.  When every attempt fails with a rate-limit
signal, `make_api_request` does *not* propagate a failure: the `for` loop is
exhausted after the final sleep and the function falls off its end,
returning `None` (a normal, success-shaped return). -/
theorem c3_rate_limit_exhaustion_counterexample :
    (make_api_request
        (fun _ => (ApiOutcome.http429 (some 5) : ApiOutcome Unit))
        (fun _ => 0)).1 = ApiResult.returnedNone ∧
    (make_api_request
        (fun _ => (ApiOutcome.http429 (some 5) : ApiOutcome Unit))
        (fun _ => 0)).1 ≠ ApiResult.raised := by
  constructor
  · decide
  · decide

/-- C3 (amended).  Transient (non-429) failures are retried on the
exponential schedule (sleeps 2, 4, 8, 16 seconds) up to the 5-attempt cap
and the final failed attempt propagates the exception; but when *every*
attempt fails with a rate-limit signal the call returns `None` instead of
raising. -/
theorem c3_retry_exhaustion (α : Type) (op : ℕ → ApiOutcome α)
    (jitter : ℕ → ℚ) :
    ((∀ a, a < max_attempts → op a = ApiOutcome.genericErr) →
      make_api_request op jitter = (ApiResult.raised, [2, 4, 8, 16])) ∧
    ((∀ a, a < max_attempts → ∃ hdr, op a = ApiOutcome.http429 hdr) →
      (make_api_request op jitter).1 = ApiResult.returnedNone) := by
  constructor
  · intro h
    have h0 := h 0 (by norm_num [max_attempts])
    have h1 := h 1 (by norm_num [max_attempts])
    have h2 := h 2 (by norm_num [max_attempts])
    have h3 := h 3 (by norm_num [max_attempts])
    have h4 := h 4 (by norm_num [max_attempts])
    norm_num [make_api_request, apiLoop, max_attempts, h0, h1, h2, h3, h4,
      base_delay]
  · intro h
    obtain ⟨d0, h0⟩ := h 0 (by norm_num [max_attempts])
    obtain ⟨d1, h1⟩ := h 1 (by norm_num [max_attempts])
    obtain ⟨d2, h2⟩ := h 2 (by norm_num [max_attempts])
    obtain ⟨d3, h3⟩ := h 3 (by norm_num [max_attempts])
    obtain ⟨d4, h4⟩ := h 4 (by norm_num [max_attempts])
    norm_num [make_api_request, apiLoop, max_attempts, h0, h1, h2, h3, h4]

/-- C3, witness. -/
theorem c3_retry_exhaustion_witness :
    make_api_request (fun _ => (ApiOutcome.genericErr : ApiOutcome Unit))
      (fun _ => 0) = (ApiResult.raised, [2, 4, 8, 16]) :=
  (c3_retry_exhaustion Unit (fun _ => ApiOutcome.genericErr)
    (fun _ => 0)).1 (fun _ _ => rfl)

/-- C10.  `make_api_request` hard-codes `max_attempts = 5` and
`base_delay = 2`; the `max_retries`, `backoff_factor` and `delay_seconds`
constructor parameters never reach it, so any two configurations produce
identical results on the same operation and failure sequence. -/
theorem c10_make_api_request_config_independent (α : Type)
    (c₁ c₂ : SpotifyChartHistory) (op : ℕ → ApiOutcome α) (jitter : ℕ → ℚ) :
    c₁.make_api_request op jitter = c₂.make_api_request op jitter ∧
    c₁.make_api_request op jitter = make_api_request op jitter :=
  ⟨rfl, rfl⟩


/-! Collector-loop lemmas. -/

theorem collectLoop_timestamps (fetch : ℕ → List ChartRecord)
    (delta end_date : ℕ) (hd : 0 < delta) :
    ∀ current acc,
      ((collectLoop fetch delta end_date hd current acc).2.map (·.timestamp)) =
        tickSchedule delta end_date hd current := by
  intro current acc
  induction current, acc using collectLoop.induct fetch delta end_date hd with
  | case1 c acc h d a2 ih =>
    rw [collectLoop, tickSchedule]
    simp only [dif_pos h, List.map_cons]
    exact congrArg (c :: ·) ih
  | case2 c acc h =>
    rw [collectLoop, tickSchedule]
    simp [dif_neg h]

theorem collectLoop_buffer (fetch : ℕ → List ChartRecord)
    (delta end_date : ℕ) (hd : 0 < delta) :
    ∀ current acc,
      (collectLoop fetch delta end_date hd current acc).1 =
        acc ++
          ((collectLoop fetch delta end_date hd current acc).2.map
            (·.fetched)).flatten := by
  intro current acc
  induction current, acc using collectLoop.induct fetch delta end_date hd with
  | case1 c acc h d a2 ih =>
    rw [collectLoop]
    simp only [dif_pos h, List.map_cons, List.flatten_cons]
    rw [ih, List.append_assoc]
  | case2 c acc h =>
    rw [collectLoop]
    simp [dif_neg h]

theorem collectLoop_checkpoint (fetch : ℕ → List ChartRecord)
    (delta end_date : ℕ) (hd : 0 < delta) :
    ∀ current acc,
      ∀ ev ∈ (collectLoop fetch delta end_date hd current acc).2,
        ev.checkpoint =
            (if ev.bufferAfter.length % 100 = 0 then some ev.bufferAfter
              else none) ∧
          ev.fetched = fetch ev.timestamp := by
  intro current acc
  induction current, acc using collectLoop.induct fetch delta end_date hd with
  | case1 c acc h d a2 ih =>
    rw [collectLoop]
    simp only [dif_pos h, List.mem_cons]
    rintro ev (rfl | hev)
    · exact ⟨rfl, rfl⟩
    · exact ih ev hev
  | case2 c acc h =>
    rw [collectLoop]
    simp [dif_neg h]

theorem collectLoop_bufferAfter (fetch : ℕ → List ChartRecord)
    (delta end_date : ℕ) (hd : 0 < delta) :
    ∀ current acc i ev,
      (collectLoop fetch delta end_date hd current acc).2.get? i = some ev →
      ev.bufferAfter =
        acc ++
          (((collectLoop fetch delta end_date hd current acc).2.take (i + 1)).map
            (·.fetched)).flatten := by
  intro current acc
  induction current, acc using collectLoop.induct fetch delta end_date hd with
  | case1 c acc h d a2 ih =>
    rw [collectLoop]
    simp only [dif_pos h]
    intro i ev hi
    match i with
    | 0 =>
      simp only [List.get?_cons_zero, Option.some.injEq] at hi
      subst hi
      simp
    | i + 1 =>
      simp only [List.get?_cons_succ] at hi
      have := ih i ev hi
      rw [this]
      simp only [List.take_succ_cons, List.map_cons, List.flatten_cons]
      rw [← List.append_assoc]
  | case2 c acc h =>
    rw [collectLoop]
    simp [dif_neg h]

theorem range_map_shift (n c delta : ℕ) :
    (List.range (n + 1)).map (fun i => c + i * delta) =
      c :: (List.range n).map (fun i => (c + delta) + i * delta) := by
  rw [List.range_succ_eq_map]
  simp only [List.map_cons, List.map_map, Nat.zero_mul, Nat.add_zero]
  refine congrArg (c :: ·) ?_
  refine List.map_congr_left fun i _ => ?_
  simp only [Function.comp_apply, Nat.succ_mul]
  ring

theorem tickSchedule_formula (delta end_date : ℕ) (hd : 0 < delta) :
    ∀ current, current ≤ end_date →
      tickSchedule delta end_date hd current =
        (List.range ((end_date - current) / delta + 1)).map
          (fun i => current + i * delta) := by
  intro current
  induction current using tickSchedule.induct delta end_date hd with
  | case1 c h ih =>
    intro _
    rw [tickSchedule]
    simp only [dif_pos h]
    by_cases h2 : c + delta ≤ end_date
    · have hnum : (end_date - c) / delta = (end_date - (c + delta)) / delta + 1 := by
        have harg : end_date - (c + delta) = end_date - c - delta := by omega
        rw [harg, Nat.div_eq_sub_div hd (by omega : delta ≤ end_date - c)]
      rw [hnum, range_map_shift]
      exact congrArg (c :: ·) (ih h2)
    · have hnil : tickSchedule delta end_date hd (c + delta) = [] := by
        rw [tickSchedule]
        simp [dif_neg h2]
      rw [hnil]
      have h0 : (end_date - c) / delta = 0 := Nat.div_eq_of_lt (by omega)
      rw [h0]
      simp [List.range_succ]
  | case2 c h =>
    intro hc
    exact absurd hc h

theorem gcbd_failEnv (t : ℕ) : get_chart_by_date failEnv t = [] := rfl

theorem run_fail_single :
    get_charts_by_period (fun _ => failEnv) 0 0 "hour" =
      ([], [⟨0, [], [], some []⟩]) := by
  have hpos := interval_timedelta_pos "hour"
  rw [get_charts_by_period, collectLoop.eq_def]
  rw [dif_pos (le_refl 0)]
  simp only [gcbd_failEnv, List.append_nil, List.length_nil, Nat.zero_mod]
  rw [collectLoop.eq_def]
  rw [dif_neg (by omega : ¬ 0 + interval_timedelta "hour" ≤ 0)]
  simp

/-- C8.  With `start ≤ end`, the collector performs exactly
`⌊(end − start) / interval⌋ + 1` ticks at `start`, `start + interval`, …,
the last one `≤ end` with no rounding correction; the interval vocabulary is
hour = 1h, day = 24h, week = 7d, month = 30d, year = 365d (in seconds). -/
theorem c8_tick_schedule (envAt : ℕ → Env) (s e : ℕ) (itv : String)
    (hse : s ≤ e)
    (_hitv : itv = "hour" ∨ itv = "day" ∨ itv = "week" ∨ itv = "month" ∨
      itv = "year") :
    (interval_timedelta "hour" = 3600 ∧ interval_timedelta "day" = 86400 ∧
      interval_timedelta "week" = 604800 ∧
      interval_timedelta "month" = 2592000 ∧
      interval_timedelta "year" = 31536000) ∧
    (get_charts_by_period envAt s e itv).2.length =
      (e - s) / interval_timedelta itv + 1 ∧
    (get_charts_by_period envAt s e itv).2.map (·.timestamp) =
      (List.range ((e - s) / interval_timedelta itv + 1)).map
        (fun i => s + i * interval_timedelta itv) ∧
    ∀ ev ∈ (get_charts_by_period envAt s e itv).2, ev.timestamp ≤ e := by
  have hmap : (get_charts_by_period envAt s e itv).2.map (·.timestamp) =
      (List.range ((e - s) / interval_timedelta itv + 1)).map
        (fun i => s + i * interval_timedelta itv) := by
    rw [get_charts_by_period, collectLoop_timestamps,
      tickSchedule_formula _ _ _ _ hse]
  refine ⟨⟨rfl, rfl, rfl, rfl, rfl⟩, ?_, hmap, ?_⟩
  · have hlen := congrArg List.length hmap
    simpa using hlen
  · intro ev hev
    have hts : ev.timestamp ∈
        (get_charts_by_period envAt s e itv).2.map (·.timestamp) :=
      List.mem_map_of_mem _ hev
    rw [hmap] at hts
    simp only [List.mem_map, List.mem_range] at hts
    obtain ⟨i, hi, hts⟩ := hts
    have hid : i ≤ (e - s) / interval_timedelta itv := by omega
    have h2 : i * interval_timedelta itv ≤ e - s :=
      calc i * interval_timedelta itv ≤
          ((e - s) / interval_timedelta itv) * interval_timedelta itv :=
            Nat.mul_le_mul_right _ hid
        _ ≤ e - s := Nat.div_mul_le_self _ _
    omega

/-- C8, witness — the spec's example: start 0, end two hours later,
hourly interval, three ticks. -/
theorem c8_tick_schedule_witness :
    (get_charts_by_period (fun _ => failEnv) 0 7200 "hour").2.map
      (·.timestamp) = [0, 3600, 7200] := by
  have h := (c8_tick_schedule (fun _ => failEnv) 0 7200 "hour" (by omega)
      (Or.inl rfl)).2.2.1
  rw [h]
  decide

/-- C4.  After each tick's append, a checkpoint fires iff the cumulative
buffer length is an exact multiple of 100 (so an overshoot past a multiple
fires nothing); when it fires, the persisted data is the entire accumulated
buffer, which is exactly the concatenation of all records fetched up to and
including this tick. -/
theorem c4_checkpoint_iff (envAt : ℕ → Env) (s e : ℕ) (itv : String)
    (i : ℕ) (ev : TickEvent)
    (hev : (get_charts_by_period envAt s e itv).2.get? i = some ev) :
    (ev.checkpoint.isSome ↔ ev.bufferAfter.length % 100 = 0) ∧
    (∀ d, ev.checkpoint = some d → d = ev.bufferAfter) ∧
    ev.bufferAfter =
      (((get_charts_by_period envAt s e itv).2.take (i + 1)).map
        (·.fetched)).flatten := by
  rw [get_charts_by_period] at hev ⊢
  have hmem := List.get?_mem hev
  obtain ⟨hcp, _hf⟩ := collectLoop_checkpoint
    (fun t => get_chart_by_date (envAt t) t) (interval_timedelta itv) e
    (interval_timedelta_pos itv) s [] ev hmem
  have hbuf := collectLoop_bufferAfter
    (fun t => get_chart_by_date (envAt t) t) (interval_timedelta itv) e
    (interval_timedelta_pos itv) s [] i ev hev
  refine ⟨?_, ?_, by simpa using hbuf⟩
  · rw [hcp]
    by_cases h : ev.bufferAfter.length % 100 = 0
    · simp [h]
    · simp [h]
  · intro d hd2
    rw [hcp] at hd2
    by_cases h : ev.bufferAfter.length % 100 = 0
    · rw [if_pos h] at hd2
      exact (Option.some_inj.mp hd2).symm
    · rw [if_neg h] at hd2
      cases hd2

/-- C4, witness. -/
theorem c4_checkpoint_iff_witness :
    ((⟨0, [], [], some []⟩ : TickEvent).checkpoint.isSome ↔
      (⟨0, [], [], some []⟩ : TickEvent).bufferAfter.length % 100 = 0) ∧
    (⟨0, [], [], some []⟩ : TickEvent).bufferAfter =
      (((get_charts_by_period (fun _ => failEnv) 0 0 "hour").2.take 1).map
        (·.fetched)).flatten :=
  ⟨(c4_checkpoint_iff (fun _ => failEnv) 0 0 "hour" 0 ⟨0, [], [], some []⟩
      (by rw [run_fail_single]; rfl)).1,
   (c4_checkpoint_iff (fun _ => failEnv) 0 0 "hour" 0 ⟨0, [], [], some []⟩
      (by rw [run_fail_single]; rfl)).2.2⟩

/-- C9.  Since zero is divisible by 100, every tick whose append leaves the cumulative
buffer empty (e.g. a failed tick before any record is collected) fires a
checkpoint that persists the empty buffer. -/
theorem c9_empty_buffer_checkpoint (envAt : ℕ → Env) (s e : ℕ)
    (itv : String) :
    ∀ ev ∈ (get_charts_by_period envAt s e itv).2,
      ev.bufferAfter = [] → ev.checkpoint = some [] := by
  intro ev hev hbuf
  rw [get_charts_by_period] at hev
  obtain ⟨hcp, _⟩ := collectLoop_checkpoint
    (fun t => get_chart_by_date (envAt t) t) (interval_timedelta itv) e
    (interval_timedelta_pos itv) s [] ev hev
  rw [hcp, hbuf]
  simp

/-- C9, witness — a run whose only tick fails entirely still writes an
(empty) checkpoint. -/
theorem c9_empty_buffer_checkpoint_witness :
    (⟨0, [], [], some []⟩ : TickEvent).checkpoint = some [] :=
  c9_empty_buffer_checkpoint (fun _ => failEnv) 0 0 "hour"
    ⟨0, [], [], some []⟩ (by rw [run_fail_single]; simp) rfl

/-! Fetcher lemmas. -/

theorem batchSlicesAux_nil (fuel i : ℕ) : batchSlicesAux fuel [] i = [] := by
  cases fuel <;> rfl

theorem batchSlices_head (ids : List String) (hne : ids ≠ []) :
    ∃ rest, batchSlices ids = (0, ids.take 100) :: rest := by
  match ids, hne with
  | x :: xs, _ => exact ⟨_, rfl⟩

theorem batchSlices_single (ids : List String) (hne : ids ≠ [])
    (hle : ids.length ≤ 100) : batchSlices ids = [(0, ids)] := by
  match ids, hne with
  | x :: xs, _ =>
    show batchSlicesAux (xs.length + 1) (x :: xs) 0 = _
    rw [batchSlicesAux]
    rw [List.take_of_length_le hle, List.drop_eq_nil_of_le hle,
      batchSlicesAux_nil]

theorem mkRecord_rank (fd ts : String) (idx : ℕ) (tr : Track)
    (genres : List String) (f : AudioFeatures) :
    (mkRecord fd ts idx tr genres f).rank = idx := rfl

/-- Master lemma about the inner batch loop over `enumerate`d tracks: when
every track has at least one artist and the feature list does not outrun the
listing, the loop succeeds, emits exactly one record per non-null feature
entry, and the emitted ranks are strictly increasing 1-based listing
positions. -/
theorem processBatch_spec (env : Env) (fd ts : String) (items : List Track)
    (hart : ∀ tr ∈ items, tr.artists ≠ []) :
    ∀ feats k, k + feats.length ≤ items.length →
      ∃ l, processBatch env fd ts (List.enumFrom 1 items) feats k = .ok l ∧
        l.length = feats.countP (fun o => o.isSome) ∧
        ((l.map (·.rank)).Pairwise (· < ·)) ∧
        (∀ r ∈ l, k + 1 ≤ r.rank ∧ r.rank ≤ items.length) := by
  intro feats
  induction feats with
  | nil =>
    intro k _hk
    exact ⟨[], rfl, by simp, by simp, by simp⟩
  | cons o rest ih =>
    intro k hk
    rw [List.length_cons] at hk
    match o with
    | none =>
      obtain ⟨l, hok, hlen, hpw, hbnd⟩ := ih (k + 1) (by omega)
      refine ⟨l, hok, ?_, hpw, ?_⟩
      · rw [hlen]
        simp [List.countP_cons]
      · intro r hr
        have := hbnd r hr
        omega
    | some f =>
      have hklt : k < items.length := by omega
      have hget : (List.enumFrom 1 items).get? k = some (1 + k, items[k]) := by
        rw [List.get?_eq_getElem?, List.getElem?_enumFrom,
          List.getElem?_eq_getElem hklt]
        rfl
      have hmem : items[k] ∈ items := List.getElem_mem hklt
      obtain ⟨a0, as, ha⟩ := List.exists_cons_of_ne_nil (hart _ hmem)
      obtain ⟨l, hok, hlen, hpw, hbnd⟩ := ih (k + 1) (by omega)
      refine ⟨mkRecord fd ts (1 + k) items[k]
          (get_track_genres env a0.id) f :: l, ?_, ?_, ?_, ?_⟩
      · show processBatch env fd ts (List.enumFrom 1 items)
          (some f :: rest) k = _
        rw [processBatch, hget]
        simp only [ha, hok]
      · rw [List.length_cons, hlen]
        simp [List.countP_cons]
      · rw [List.map_cons, List.pairwise_cons]
        refine ⟨?_, hpw⟩
        intro b hb
        simp only [List.mem_map] at hb
        obtain ⟨r, hr, rfl⟩ := hb
        have := hbnd r hr
        rw [mkRecord_rank]
        omega
      · intro r hr
        rcases List.mem_cons.mp hr with rfl | hr
        · rw [mkRecord_rank]
          omega
        · have := hbnd r hr
          omega

/-- Characterisation of a successful single-batch snapshot: the playlist
listing succeeds, there are at most 100 tracks (one batch), the batch call
returns `feats`, and every listed track has an artist. -/
theorem gcbd_spec (env : Env) (t : ℕ) (p : Playlist)
    (feats : List (Option AudioFeatures))
    (hp : env.playlist = .ok p) (hlen : p.items.length ≤ 100)
    (haf : env.audio_features (p.items.map (·.id)) = .ok feats)
    (hfl : feats.length ≤ p.items.length)
    (hart : ∀ tr ∈ p.items, tr.artists ≠ []) :
    (get_chart_by_date env t).length = feats.countP (fun o => o.isSome) ∧
    ((get_chart_by_date env t).map (·.rank)).Pairwise (· < ·) ∧
    ∀ r ∈ get_chart_by_date env t, 1 ≤ r.rank ∧ r.rank ≤ p.items.length := by
  obtain ⟨l, hok, hl, hpw, hbnd⟩ :=
    processBatch_spec env (strftime_Ymd t) (strftime_HM t) p.items hart feats 0
      (by omega)
  have hout : get_chart_by_date env t = l := by
    by_cases hnil : p.items = []
    · have hfnil : feats = [] := by
        rw [hnil] at hfl
        exact List.eq_nil_of_length_eq_zero (by simpa using hfl)
      have : l = [] := by
        rw [hfnil, hnil] at hok
        cases hok
        rfl
      rw [this]
      rw [get_chart_by_date, hp]
      simp only [hnil, List.map_nil]
      rw [show batchSlices [] = [] from rfl]
      rfl
    · have hidsne : p.items.map (·.id) ≠ [] := by
        simpa [List.map_eq_nil_iff] using hnil
    
      have hbs : batchSlices (p.items.map (·.id)) = [(0, p.items.map (·.id))] :=
        batchSlices_single _ hidsne (by simpa using hlen)
      rw [get_chart_by_date, hp]
      simp only
      rw [hbs, processAllBatches, haf]
      simp [hok, processAllBatches]
  rw [hout]
  exact ⟨hl, hpw, fun r hr => hbnd r hr⟩

/-- C2, counterexample.  With three listed tracks whose second
audio-feature entry is null, the snapshot's ranks are `[1, 3]`: unique and
increasing, but *not* the contiguous set `{1, …, k}` for any `k` — the rank
of a skipped track is simply missing. -/
theorem c2_rank_contiguity_counterexample :
    (get_chart_by_date gapEnv 0).map (·.rank) = [1, 3] ∧
    ¬ ∃ k : ℕ, ∀ n : ℕ,
        n ∈ (get_chart_by_date gapEnv 0).map (·.rank) ↔ 1 ≤ n ∧ n ≤ k := by
  refine ⟨by decide, ?_⟩
  rintro ⟨k, hk⟩
  have h3 : 1 ≤ 3 ∧ 3 ≤ k := (hk 3).mp (by decide)
  have h2 : (2 : ℕ) ∈ (get_chart_by_date gapEnv 0).map (·.rank) :=
    (hk 2).mpr ⟨by omega, by omega⟩
  revert h2
  decide

/-- C2 (amended).  Within one snapshot the emitted ranks are the
1-based positions of the kept tracks in the upstream listing: strictly
increasing (hence unique) and bounded by the listing size; they form the
contiguous set `{1, …, k}` only when no track is skipped. -/
theorem c2_ranks_unique_increasing (env : Env) (t : ℕ) (p : Playlist)
    (feats : List (Option AudioFeatures))
    (hp : env.playlist = ApiResult.ok p) (hlen : p.items.length ≤ 100)
    (haf : env.audio_features (p.items.map (·.id)) = ApiResult.ok feats)
    (hfl : feats.length ≤ p.items.length)
    (hart : ∀ tr ∈ p.items, tr.artists ≠ []) :
    ((get_chart_by_date env t).map (·.rank)).Pairwise (· < ·) ∧
    ∀ r ∈ get_chart_by_date env t, 1 ≤ r.rank ∧ r.rank ≤ p.items.length :=
  (gcbd_spec env t p feats hp hlen haf hfl hart).2

/-- C2, witness. -/
theorem c2_ranks_unique_increasing_witness :
    ((get_chart_by_date gapEnv 0).map (·.rank)).Pairwise (· < ·) :=
  (c2_ranks_unique_increasing gapEnv 0
    ⟨[sampleTrack 1, sampleTrack 2, sampleTrack 3]⟩
    [some sampleFeat, none, some sampleFeat] rfl (by decide) rfl (by decide)
    (by decide)).1

/-- C5.  A track whose audio-feature entry is null is skipped: the
snapshot emits exactly one record per present (non-null) entry of the batch
result. -/
theorem c5_null_features_skipped (env : Env) (t : ℕ) (p : Playlist)
    (feats : List (Option AudioFeatures))
    (hp : env.playlist = ApiResult.ok p) (hlen : p.items.length ≤ 100)
    (haf : env.audio_features (p.items.map (·.id)) = ApiResult.ok feats)
    (hfl : feats.length ≤ p.items.length)
    (hart : ∀ tr ∈ p.items, tr.artists ≠ []) :
    (get_chart_by_date env t).length = feats.countP (fun o => o.isSome) :=
  (gcbd_spec env t p feats hp hlen haf hfl hart).1

/-- C5, witness — the spec's example: a batch of 3 ids whose second
entry is null yields exactly 2 records. -/
theorem c5_null_features_skipped_witness :
    (get_chart_by_date gapEnv 0).length = 2 :=
  (c5_null_features_skipped gapEnv 0
      ⟨[sampleTrack 1, sampleTrack 2, sampleTrack 3]⟩
      [some sampleFeat, none, some sampleFeat] rfl (by decide) rfl (by decide)
      (by decide)).trans (by decide)

/-- C6.  A failed playlist listing (exception or `None` return) or a
failed audio-feature batch call degrades the tick's snapshot to `[]` instead
of raising; the collector's schedule does not depend on fetched data (the
run continues to the next tick), and the accumulated buffer is exactly the
concatenation of the per-tick snapshot outputs — partial failures only
shrink it, they never corrupt it. -/
theorem c6_partial_failure_degrades :
    (∀ env t, env.playlist = ApiResult.raised →
      get_chart_by_date env t = []) ∧
    (∀ env t, env.playlist = ApiResult.returnedNone →
      get_chart_by_date env t = []) ∧
    (∀ env t p, env.playlist = ApiResult.ok p → p.items ≠ [] →
      env.audio_features ((p.items.map (·.id)).take 100) =
        ApiResult.raised →
      get_chart_by_date env t = []) ∧
    (∀ envAt s e itv,
      (get_charts_by_period envAt s e itv).1 =
        ((get_charts_by_period envAt s e itv).2.map (·.fetched)).flatten ∧
      ∀ ev ∈ (get_charts_by_period envAt s e itv).2,
        ev.fetched = get_chart_by_date (envAt ev.timestamp) ev.timestamp) ∧
    (∀ envAt envAt' s e itv,
      (get_charts_by_period envAt s e itv).2.map (·.timestamp) =
        (get_charts_by_period envAt' s e itv).2.map (·.timestamp)) := by
  refine ⟨?_, ?_, ?_, ?_, ?_⟩
  · intro env t h
    simp [get_chart_by_date, h]
  · intro env t h
    simp [get_chart_by_date, h]
  · intro env t p hp hne haf
    obtain ⟨rest, hbs⟩ := batchSlices_head (p.items.map (·.id))
      (by simpa [List.map_eq_nil_iff] using hne)
    simp [get_chart_by_date, hp, hbs, processAllBatches, haf]
  · intro envAt s e itv
    constructor
    · rw [get_charts_by_period]
      have h := collectLoop_buffer (fun t => get_chart_by_date (envAt t) t)
        (interval_timedelta itv) e (interval_timedelta_pos itv) s []
      simpa using h
    · intro ev hev
      rw [get_charts_by_period] at hev
      exact (collectLoop_checkpoint (fun t => get_chart_by_date (envAt t) t)
        (interval_timedelta itv) e (interval_timedelta_pos itv) s [] ev hev).2
  · intro envAt envAt' s e itv
    rw [get_charts_by_period, get_charts_by_period, collectLoop_timestamps,
      collectLoop_timestamps]

/-- C6, witness. -/
theorem c6_partial_failure_degrades_witness :
    get_chart_by_date failEnv 0 = [] ∧ get_chart_by_date batchFailEnv 0 = [] :=
  ⟨c6_partial_failure_degrades.1 failEnv 0 rfl,
   c6_partial_failure_degrades.2.2.1 batchFailEnv 0 ⟨[sampleTrack 1]⟩ rfl
     (by decide) rfl⟩

/-! Genre-failure lemmas. -/

theorem get_track_genres_raised (env : Env) (aid : String)
    (h : env.artist aid = ApiResult.raised) :
    get_track_genres env aid = [] := by
  simp only [get_track_genres, h]

theorem get_track_genres_congr (env env' : Env) (x : String)
    (h : env'.artist x = env.artist x) :
    get_track_genres env' x = get_track_genres env x := by
  simp only [get_track_genres, h]

theorem mkRecord_genre_unknown (fd ts : String) (idx : ℕ) (tr : Track)
    (g : List String) (f : AudioFeatures) :
    mkRecord fd ts idx tr [] f =
      { mkRecord fd ts idx tr g f with genre := "Unknown" } := by
  simp [mkRecord]

theorem processBatch_degrade (env env' : Env) (a : String)
    (hagree : ∀ x, x ≠ a → env'.artist x = env.artist x)
    (hfail : env'.artist a = ApiResult.raised)
    (fd ts : String) (ti : List (ℕ × Track)) :
    ∀ feats k,
      (∀ l, processBatch env fd ts ti feats k = .ok l →
        ∃ l', processBatch env' fd ts ti feats k = .ok l' ∧
          List.Forall₂ DegradesTo l l') ∧
      (processBatch env fd ts ti feats k = .error () →
        processBatch env' fd ts ti feats k = .error ()) := by
  intro feats
  induction feats with
  | nil =>
    intro k
    constructor
    · intro l hl
      simp only [processBatch, Except.ok.injEq] at hl
      subst hl
      exact ⟨[], rfl, List.Forall₂.nil⟩
    · intro h
      simp only [processBatch] at h
      exact Except.noConfusion h
  | cons o rest ih =>
    intro k
    match o with
    | none => exact ih (k + 1)
    | some f =>
      cases h1 : ti.get? k with
      | none =>
        constructor
        · intro l hl
          simp only [processBatch, h1] at hl
          exact Except.noConfusion hl
        · intro _
          simp only [processBatch, h1]
      | some pair =>
        obtain ⟨idx, tr⟩ := pair
        cases h2 : tr.artists with
        | nil =>
          constructor
          · intro l hl
            simp only [processBatch, h1, h2] at hl
            exact Except.noConfusion hl
          · intro _
            simp only [processBatch, h1, h2]
        | cons a0 as =>
          cases h3 : processBatch env fd ts ti rest (k + 1) with
          | error err =>
            cases err
            have herr' : processBatch env' fd ts ti rest (k + 1) =
                .error () := (ih (k + 1)).2 h3
            constructor
            · intro l hl
              simp only [processBatch, h1, h2, h3] at hl
              exact Except.noConfusion hl
            · intro _
              simp only [processBatch, h1, h2, herr']
          | ok recs =>
            obtain ⟨recs', hok', hrel⟩ := (ih (k + 1)).1 recs h3
            constructor
            · intro l hl
              simp only [processBatch, h1, h2, h3, Except.ok.injEq] at hl
              subst hl
              refine ⟨mkRecord fd ts idx tr
                  (get_track_genres env' a0.id) f :: recs', ?_, ?_⟩
              · simp only [processBatch, h1, h2, hok']
              · refine List.Forall₂.cons ?_ hrel
                by_cases ha0 : a0.id = a
                · right
                  have hgen : get_track_genres env' a0.id = [] := by
                    rw [ha0]
                    exact get_track_genres_raised env' a hfail
                  rw [hgen]
                  exact mkRecord_genre_unknown fd ts idx tr
                    (get_track_genres env a0.id) f
                · left
                  rw [get_track_genres_congr env env' a0.id (hagree _ ha0)]
            · intro herr
              simp only [processBatch, h1, h2, h3] at herr
              exact Except.noConfusion herr

theorem processAllBatches_degrade (env env' : Env) (a : String)
    (hagree : ∀ x, x ≠ a → env'.artist x = env.artist x)
    (hfail : env'.artist a = ApiResult.raised)
    (hAF : ∀ b, env'.audio_features b = env.audio_features b)
    (fd ts : String) (ti : List (ℕ × Track)) :
    ∀ slices,
      (∀ l, processAllBatches env fd ts ti slices = .ok l →
        ∃ l', processAllBatches env' fd ts ti slices = .ok l' ∧
          List.Forall₂ DegradesTo l l') ∧
      (processAllBatches env fd ts ti slices = .error () →
        processAllBatches env' fd ts ti slices = .error ()) := by
  intro slices
  induction slices with
  | nil =>
    constructor
    · intro l hl
      simp only [processAllBatches, Except.ok.injEq] at hl
      subst hl
      exact ⟨[], rfl, List.Forall₂.nil⟩
    · intro h
      simp only [processAllBatches] at h
      exact Except.noConfusion h
  | cons sl rest ih =>
    obtain ⟨i, batch_ids⟩ := sl
    have hAFb := hAF batch_ids
    cases h1 : env.audio_features batch_ids with
    | raised =>
      constructor
      · intro l hl
        simp only [processAllBatches, h1] at hl
        exact Except.noConfusion hl
      · intro _
        rw [h1] at hAFb
        simp only [processAllBatches, hAFb]
    | returnedNone =>
      constructor
      · intro l hl
        simp only [processAllBatches, h1] at hl
        exact Except.noConfusion hl
      · intro _
        rw [h1] at hAFb
        simp only [processAllBatches, hAFb]
    | ok feats =>
      rw [h1] at hAFb
      cases h2 : processBatch env fd ts ti feats i with
      | error err =>
        cases err
        have herr' := (processBatch_degrade env env' a hagree hfail fd ts ti
          feats i).2 h2
        constructor
        · intro l hl
          simp only [processAllBatches, h1, h2] at hl
          exact Except.noConfusion hl
        · intro _
          simp only [processAllBatches, hAFb, herr']
      | ok recs =>
        obtain ⟨recs', hok', hrel⟩ := (processBatch_degrade env env' a hagree
          hfail fd ts ti feats i).1 recs h2
        cases h3 : processAllBatches env fd ts ti rest with
        | error err =>
          cases err
          have herr' := ih.2 h3
          constructor
          · intro l hl
            simp only [processAllBatches, h1, h2, h3] at hl
            exact Except.noConfusion hl
          · intro _
            simp only [processAllBatches, hAFb, hok', herr']
        | ok more =>
          obtain ⟨more', hok2', hrel2⟩ := ih.1 more h3
          constructor
          · intro l hl
            simp only [processAllBatches, h1, h2, h3, Except.ok.injEq] at hl
            subst hl
            refine ⟨recs' ++ more', ?_, List.rel_append hrel hrel2⟩
            simp only [processAllBatches, hAFb, hok', hok2']
          · intro herr
            simp only [processAllBatches, h1, h2, h3] at herr
            exact Except.noConfusion herr

theorem processBatch_agree (env env' : Env) (a : String)
    (hagree : ∀ x, x ≠ a → env'.artist x = env.artist x)
    (fd ts : String) (ti : List (ℕ × Track))
    (hti : ∀ k idx tr, ti.get? k = some (idx, tr) →
      ∀ a0 ∈ tr.artists.head?, a0.id ≠ a) :
    ∀ feats k,
      processBatch env' fd ts ti feats k =
        processBatch env fd ts ti feats k := by
  intro feats
  induction feats with
  | nil => intro k; rfl
  | cons o rest ih =>
    intro k
    match o with
    | none => exact ih (k + 1)
    | some f =>
      cases h1 : ti.get? k with
      | none => simp only [processBatch, h1]
      | some pair =>
        obtain ⟨idx, tr⟩ := pair
        cases h2 : tr.artists with
        | nil => simp only [processBatch, h1, h2]
        | cons a0 as =>
          have ha0 : a0.id ≠ a := by
            apply hti k idx tr h1
            simp [h2]
          have hgen := get_track_genres_congr env env' a0.id (hagree _ ha0)
          simp only [processBatch, h1, h2, ih (k + 1), hgen]

theorem processAllBatches_agree (env env' : Env) (a : String)
    (hagree : ∀ x, x ≠ a → env'.artist x = env.artist x)
    (hAF : ∀ b, env'.audio_features b = env.audio_features b)
    (fd ts : String) (ti : List (ℕ × Track))
    (hti : ∀ k idx tr, ti.get? k = some (idx, tr) →
      ∀ a0 ∈ tr.artists.head?, a0.id ≠ a) :
    ∀ slices,
      processAllBatches env' fd ts ti slices =
        processAllBatches env fd ts ti slices := by
  intro slices
  induction slices with
  | nil => rfl
  | cons sl rest ih =>
    obtain ⟨i, b⟩ := sl
    simp only [processAllBatches, hAF b, ih,
      processBatch_agree env env' a hagree fd ts ti hti]

/-- C7.  A failed genre lookup degrades to an empty genre list, rendered
as the sentinel `"Unknown"` in the assembled record; a lookup failure for
one artist leaves every record of other artists untouched, changes affected
records only in their genre field, and never shrinks or fails the
snapshot. -/
theorem c7_genre_failure_unknown :
    (∀ env aid, env.artist aid = ApiResult.raised →
      get_track_genres env aid = []) ∧
    (∀ fd ts idx tr f, (mkRecord fd ts idx tr [] f).genre = "Unknown") ∧
    (∀ env env' t a,
      env'.playlist = env.playlist →
      (∀ b, env'.audio_features b = env.audio_features b) →
      (∀ x, x ≠ a → env'.artist x = env.artist x) →
      env'.artist a = ApiResult.raised →
      List.Forall₂ DegradesTo (get_chart_by_date env t)
          (get_chart_by_date env' t) ∧
        (get_chart_by_date env' t).length =
          (get_chart_by_date env t).length) ∧
    (∀ env env' t a p,
      env'.playlist = env.playlist → env.playlist = ApiResult.ok p →
      (∀ b, env'.audio_features b = env.audio_features b) →
      (∀ x, x ≠ a → env'.artist x = env.artist x) →
      (∀ tr ∈ p.items, ∀ a0 ∈ tr.artists.head?, a0.id ≠ a) →
      get_chart_by_date env' t = get_chart_by_date env t) := by
  refine ⟨?_, ?_, ?_, ?_⟩
  · exact get_track_genres_raised
  · intro fd ts idx tr f
    simp [mkRecord]
  · intro env env' t a hpl hAF hagree hfail
    have hmain : List.Forall₂ DegradesTo (get_chart_by_date env t)
        (get_chart_by_date env' t) := by
      cases hp : env.playlist with
      | raised =>
        have hp' : env'.playlist = ApiResult.raised := hpl.trans hp
        simp only [get_chart_by_date, hp, hp']
        exact List.Forall₂.nil
      | returnedNone =>
        have hp' : env'.playlist = ApiResult.returnedNone := hpl.trans hp
        simp only [get_chart_by_date, hp, hp']
        exact List.Forall₂.nil
      | ok p =>
        have hp' : env'.playlist = ApiResult.ok p := hpl.trans hp
        have hpd := processAllBatches_degrade env env' a hagree hfail hAF
          (strftime_Ymd t) (strftime_HM t) (List.enumFrom 1 p.items)
        cases h3 : processAllBatches env (strftime_Ymd t) (strftime_HM t)
            (List.enumFrom 1 p.items)
            (batchSlices (List.map (fun x => x.id) p.items)) with
        | error err =>
          cases err
          have herr' := (hpd _).2 h3
          simp only [get_chart_by_date, hp, hp', h3, herr']
          exact List.Forall₂.nil
        | ok l =>
          obtain ⟨l', hok', hrel⟩ := (hpd _).1 l h3
          simp only [get_chart_by_date, hp, hp', h3, hok']
          exact hrel
    exact ⟨hmain, hmain.length_eq.symm⟩
  · intro env env' t a p hpl hp hAF hagree hprim
    have hp' : env'.playlist = ApiResult.ok p := hpl.trans hp
    have hti : ∀ k idx tr,
        (List.enumFrom 1 p.items).get? k = some (idx, tr) →
        ∀ a0 ∈ tr.artists.head?, a0.id ≠ a := by
      intro k idx tr hk
      have hmem : p.items.get? k = some tr := by
        rw [List.get?_eq_getElem?] at hk ⊢
        rw [List.getElem?_enumFrom] at hk
        cases hx : p.items[k]? with
        | none =>
          rw [hx] at hk
          exact Option.noConfusion hk
        | some tr2 =>
          rw [hx] at hk
          simp only [Option.map_some', Option.some.injEq, Prod.mk.injEq] at hk
          rw [hk.2]
      exact hprim tr (List.get?_mem hmem)
    have hag := processAllBatches_agree env env' a hagree hAF
      (strftime_Ymd t) (strftime_HM t) (List.enumFrom 1 p.items) hti
      (batchSlices (List.map (fun x => x.id) p.items))
    simp only [get_chart_by_date, hp, hp', hag]

/-- C7, witness — first track's artist lookup fails: snapshot keeps both
records, at most degrading genres to `"Unknown"`. -/
theorem c7_genre_failure_unknown_witness :
    List.Forall₂ DegradesTo (get_chart_by_date genreEnv 0)
        (get_chart_by_date genreEnvFail 0) ∧
      (get_chart_by_date genreEnvFail 0).length =
        (get_chart_by_date genreEnv 0).length :=
  c7_genre_failure_unknown.2.2.1 genreEnv genreEnvFail 0 "a1" rfl
    (fun _ => rfl)
    (fun x hx => by simp only [genreEnvFail, if_neg hx])
    (by simp [genreEnvFail])
